import Mathlib

/-!
Shallow embedding of the custom Monte-Carlo process-state classes of the
qablet-academy intro notebooks: the single-asset flat-vol states
`BSStateMC` (MCStateBase variant) and `BSMC` (MCFixedStep variant), the
two-asset flat-vol state `BS2State`, and the Heston state `MyState`.

Real numbers are modelled by `ℚ` (exact arithmetic; the Python code uses
binary floats, but every claim below is about the algebraic structure of
the updates, not rounding).  The external library primitives `math.sqrt`
and `np.exp` are abstracted as function parameters `sq`/`ex`, and the
numpy `Generator` is modelled as a stream of pre-drawn variates with a
cursor, so that "how many variates were drawn" is observable state.
-/

namespace QabletMC

/-- The epsilon threshold `1e-10` used in the guarded `advance` methods. -/
def eps : ℚ := 1 / 10000000000

/-- Modelled from the spec: the numpy `Generator` (seeded with `SFC64`) is an
external collaborator supplying independent standard-normal variates.  We model
it as an infinite stream of pre-drawn variates together with a cursor; a draw of
`n` variates returns the next `n` stream values and moves the cursor by `n`,
which makes "no randomness was drawn" / "`path_count` variates were drawn"
observable as the cursor's motion. -/
structure RNG where
  stream : ℕ → ℚ
  idx : ℕ

namespace RNG

/-- `rng.standard_normal(n)`: return the next `n` variates and the advanced
generator. -/
def standard_normal (r : RNG) (n : ℕ) : (ℕ → ℚ) × RNG :=
  (fun i => r.stream (r.idx + i), ⟨r.stream, r.idx + n⟩)

end RNG

/-- Modelled from the spec: the external `Forwards` curve object of
`qablet.base.utils` / `finmc.utils.assets`, exposing `forward(t)` and the
continuously-compounded deterministic rate `rate(t1, t0)` over `[t0, t1]`. -/
structure Forwards where
  forward : ℚ → ℚ
  rate : ℚ → ℚ → ℚ

/-- State of the single-asset Black-Scholes MC process (`BSStateMC` in
notebook 2.1, `MCStateBase` variant). -/
structure BSStateMC where
  n : ℕ
  asset : String
  asset_fwd : Forwards
  spot : ℚ
  vol : ℚ
  rng : RNG
  x_vec : ℕ → ℚ
  cur_time : ℚ

/-- `BSStateMC.__init__`: fetch parameters, set `spot = asset_fwd.forward(0)`,
seed the generator, zero the log-price vector, start the clock at 0. -/
def mkBSStateMC (asset : String) (asset_fwd : Forwards) (vol : ℚ) (n : ℕ)
    (stream : ℕ → ℚ) : BSStateMC :=
  { n := n
    asset := asset
    asset_fwd := asset_fwd
    spot := asset_fwd.forward 0
    vol := vol
    rng := ⟨stream, 0⟩
    x_vec := fun _ => 0
    cur_time := 0 }

namespace BSStateMC

/-- `BSStateMC.advance(new_time)`; `sq` stands in for `math.sqrt`. -/
def advance (sq : ℚ → ℚ) (s : BSStateMC) (new_time : ℚ) : BSStateMC :=
  let dt := new_time - s.cur_time
  if dt < eps then s
  else
    let fwd_rate := s.asset_fwd.rate new_time s.cur_time
    let d := s.rng.standard_normal s.n
    let dz_vec := fun i => d.1 i * sq dt * s.vol
    { s with
      rng := d.2
      x_vec := fun i => (s.x_vec i + (fwd_rate - s.vol * s.vol / 2) * dt) + dz_vec i
      cur_time := new_time }

/-- `BSStateMC.get_value(unit)`; `ex` stands in for `np.exp`. -/
def get_value (ex : ℚ → ℚ) (s : BSStateMC) (unit : String) : Option (ℕ → ℚ) :=
  if unit = s.asset then some (fun i => s.spot * ex (s.x_vec i)) else none

end BSStateMC

/-- State of the `MCFixedStep` flat-vol variant (`BSMC` in notebook 2.1 of
the finmc-based revision).  Its `step` has no epsilon guard. -/
structure BSMC where
  n : ℕ
  timestep : ℚ
  asset : String
  asset_fwd : Forwards
  spot : ℚ
  vol : ℚ
  discount : ℚ → ℚ
  rng : RNG
  x_vec : ℕ → ℚ
  cur_time : ℚ

namespace BSMC

/-- `BSMC.step(new_time)`: unconditional update (no `dt < 1e-10` guard). -/
def step (sq : ℚ → ℚ) (s : BSMC) (new_time : ℚ) : BSMC :=
  let dt := new_time - s.cur_time
  let fwd_rate := s.asset_fwd.rate new_time s.cur_time
  let d := s.rng.standard_normal s.n
  let dz_vec := fun i => d.1 i * sq dt * s.vol
  { s with
    rng := d.2
    x_vec := fun i => s.x_vec i + ((fwd_rate - s.vol * s.vol / 2) * dt + dz_vec i)
    cur_time := new_time }

/-- `BSMC.get_value(unit)`: returns the simulated values for its own asset and
falls through (Python `None`) otherwise. -/
def get_value (ex : ℚ → ℚ) (s : BSMC) (unit : String) : Option (ℕ → ℚ) :=
  if unit = s.asset then some (fun i => s.spot * ex (s.x_vec i)) else none

/-- `BSMC.get_df()`. -/
def get_df (s : BSMC) : ℚ := s.discount s.cur_time

end BSMC

/-- State of the two-asset Black-Scholes MC process (`BS2State` in
notebook 2.2). -/
structure BS2State where
  asset1 : String
  asset_fwd1 : Forwards
  spot1 : ℚ
  vol1 : ℚ
  asset2 : String
  asset_fwd2 : Forwards
  spot2 : ℚ
  vol2 : ℚ
  corr : ℚ
  corr_sup : ℚ
  n : ℕ
  rng : RNG
  x1_vec : ℕ → ℚ
  x2_vec : ℕ → ℚ
  cur_time : ℚ

/-- `BS2State.__init__`: in particular `corr_sup = sqrt(1 - corr * corr)`,
both log-price vectors zeroed, clock at 0. -/
def mkBS2State (sq : ℚ → ℚ) (asset1 : String) (asset_fwd1 : Forwards)
    (vol1 : ℚ) (asset2 : String) (asset_fwd2 : Forwards) (vol2 corr : ℚ)
    (n : ℕ) (stream : ℕ → ℚ) : BS2State :=
  { asset1 := asset1
    asset_fwd1 := asset_fwd1
    spot1 := asset_fwd1.forward 0
    vol1 := vol1
    asset2 := asset2
    asset_fwd2 := asset_fwd2
    spot2 := asset_fwd2.forward 0
    vol2 := vol2
    corr := corr
    corr_sup := sq (1 - corr * corr)
    n := n
    rng := ⟨stream, 0⟩
    x1_vec := fun _ => 0
    x2_vec := fun _ => 0
    cur_time := 0 }

namespace BS2State

/-- `BS2State.advance(new_time)`: two independent standard-normal draws,
asset 2's shock built as `z2 * corr_sup + corr * z1`. -/
def advance (sq : ℚ → ℚ) (s : BS2State) (new_time : ℚ) : BS2State :=
  let dt := new_time - s.cur_time
  if dt < eps then s
  else
    let drift1 := s.asset_fwd1.rate new_time s.cur_time
    let drift2 := s.asset_fwd2.rate new_time s.cur_time
    let d1 := s.rng.standard_normal s.n
    let d2 := d1.2.standard_normal s.n
    let dz1_vec := d1.1
    let dz2_vec := fun i => d2.1 i * s.corr_sup + s.corr * dz1_vec i
    { s with
      rng := d2.2
      x1_vec := fun i =>
        (s.x1_vec i + (drift1 - s.vol1 * s.vol1 / 2) * dt) + dz1_vec i * sq dt * s.vol1
      x2_vec := fun i =>
        (s.x2_vec i + (drift2 - s.vol2 * s.vol2 / 2) * dt) + dz2_vec i * sq dt * s.vol2
      cur_time := new_time }

/-- `BS2State.get_value(unit)`: dispatch on the two configured asset names. -/
def get_value (ex : ℚ → ℚ) (s : BS2State) (unit : String) : Option (ℕ → ℚ) :=
  if unit = s.asset1 then some (fun i => s.spot1 * ex (s.x1_vec i))
  else if unit = s.asset2 then some (fun i => s.spot2 * ex (s.x2_vec i))
  else none

end BS2State

/-- Modelled from the spec: numpy's `rng.multivariate_normal([0,0], cov, n)`
(followed by `.transpose()`) is an external sampler producing a pair of
correlated normal vectors with the given 2x2 covariance.  We abstract it as a
function taking the covariance entries `((c00, c01), (c10, c11))`, the path
count and the generator, and returning the pair of vectors plus the advanced
generator. -/
def MVNSampler : Type :=
  (ℚ × ℚ) × (ℚ × ℚ) → ℕ → RNG → ((ℕ → ℚ) × (ℕ → ℚ)) × RNG

/-- State of the Heston MC process (`MyState` in the Heston workshop
notebook).  `heston_params = (LONG_VAR, VOL_OF_VAR, MEANREV, CORRELATION)`
i.e. `(theta, vvol, meanrev, corr)`. -/
structure MyState where
  n : ℕ
  rng : RNG
  asset : String
  asset_fwd : Forwards
  spot : ℚ
  heston_params : ℚ × ℚ × ℚ × ℚ
  x_vec : ℕ → ℚ
  v_vec : ℕ → ℚ
  cur_time : ℚ

/-- `MyState.__init__`: log-price vector zeroed, variance vector filled with
`INITIAL_VAR`, clock at 0. -/
def mkMyState (asset : String) (asset_fwd : Forwards)
    (long_var vol_of_var meanrev correlation initial_var : ℚ) (n : ℕ)
    (stream : ℕ → ℚ) : MyState :=
  { n := n
    rng := ⟨stream, 0⟩
    asset := asset
    asset_fwd := asset_fwd
    spot := asset_fwd.forward 0
    heston_params := (long_var, vol_of_var, meanrev, correlation)
    x_vec := fun _ => 0
    v_vec := fun _ => initial_var
    cur_time := 0 }

namespace MyState

/-- `MyState.advance(new_time)`: guarded by `dt < 1e-10`; draws a correlated
pair via `multivariate_normal` with covariance `[[dt, corr*dt], [corr*dt, dt]]`;
uses `vol_vec = sqrt(max(0, v_vec))` in every multiplicative term, while the
stored variance is updated without a clamp.  `sq` stands in for `np.sqrt` and
`mvn` for the bivariate-normal sampler. -/
def advance (sq : ℚ → ℚ) (mvn : MVNSampler) (s : MyState) (new_time : ℚ) :
    MyState :=
  let dt := new_time - s.cur_time
  if dt < eps then s
  else
    let theta := s.heston_params.1
    let vvol := s.heston_params.2.1
    let meanrev := s.heston_params.2.2.1
    let corr := s.heston_params.2.2.2
    let fwd_rate := s.asset_fwd.rate new_time s.cur_time
    let cov := ((dt, corr * dt), (corr * dt, dt))
    let d := mvn cov s.n s.rng
    let vol_vec := fun i => sq (max 0 (s.v_vec i))
    { s with
      rng := d.2
      x_vec := fun i =>
        (s.x_vec i + (fwd_rate - vol_vec i * vol_vec i / 2) * dt) + vol_vec i * d.1.1 i
      v_vec := fun i =>
        (s.v_vec i + (theta - s.v_vec i) * meanrev * dt) + vvol * vol_vec i * d.1.2 i
      cur_time := new_time }

/-- `MyState.get_value(unit)`. -/
def get_value (ex : ℚ → ℚ) (s : MyState) (unit : String) : Option (ℕ → ℚ) :=
  if unit = s.asset then some (fun i => s.spot * ex (s.x_vec i)) else none

end MyState

/-! ## Helper lemmas -/

theorem eps_pos : (0 : ℚ) < eps := by norm_num [eps]

theorem BSStateMC.bsstate_advance_of_lt (sq : ℚ → ℚ) (s : BSStateMC) (t : ℚ)
    (h : t - s.cur_time < eps) : s.advance sq t = s := by
  simp only [BSStateMC.advance, if_pos h]

theorem BS2State.bs2_advance_of_lt (sq : ℚ → ℚ) (s : BS2State) (t : ℚ)
    (h : t - s.cur_time < eps) : s.advance sq t = s := by
  simp only [BS2State.advance, if_pos h]

theorem MyState.heston_advance_of_lt (sq : ℚ → ℚ) (mvn : MVNSampler) (s : MyState)
    (t : ℚ) (h : t - s.cur_time < eps) : s.advance sq mvn t = s := by
  simp only [MyState.advance, if_pos h]

theorem BSStateMC.bsstate_advance_cur_time_of_le (sq : ℚ → ℚ) (s : BSStateMC) (t : ℚ)
    (h : ¬ t - s.cur_time < eps) : (s.advance sq t).cur_time = t := by
  simp only [BSStateMC.advance, if_neg h]

theorem BS2State.bs2_advance_cur_time_of_le (sq : ℚ → ℚ) (s : BS2State) (t : ℚ)
    (h : ¬ t - s.cur_time < eps) : (s.advance sq t).cur_time = t := by
  simp only [BS2State.advance, if_neg h]

theorem MyState.heston_advance_cur_time_of_le (sq : ℚ → ℚ) (mvn : MVNSampler)
    (s : MyState) (t : ℚ) (h : ¬ t - s.cur_time < eps) :
    (s.advance sq mvn t).cur_time = t := by
  simp only [MyState.advance, if_neg h]

/-! ## Concrete fixtures for witnesses and counterexamples -/

/-- A concrete bivariate sampler instance (used only to instantiate theorems at
concrete inputs): it takes the two coordinate vectors from the stream and moves
the cursor by `2 * n`. -/
def mvn0 : MVNSampler := fun _ n r =>
  ((fun i => r.stream (r.idx + i), fun i => r.stream (r.idx + n + i)),
    ⟨r.stream, r.idx + 2 * n⟩)

/-- A flat curve fixture: forwards at 100, zero rates. -/
def fwd0 : Forwards := ⟨fun _ => 100, fun _ _ => 0⟩

/-- A curve fixture with rate 1 (distinct drift from `fwd0`). -/
def fwd1 : Forwards := ⟨fun _ => 100, fun _ _ => 1⟩

/-- A concrete `BSMC` state as produced by `reset` from the notebook dataset
shape (clock 0, zero log-price vector, fresh generator). -/
def bsmc0 : BSMC :=
  { n := 2
    timestep := 1 / 250
    asset := "SPX"
    asset_fwd := fwd0
    spot := 100
    vol := 1 / 4
    discount := fun _ => 1
    rng := ⟨fun _ => 0, 0⟩
    x_vec := fun _ => 0
    cur_time := 0 }

/-! ## Claims -/

/-- C1: for the single-asset flat-vol process, every `advance(new_time)` with
`dt = new_time - cur_time ≥ 1e-10` draws `path_count` fresh standard-normal
variates `z` (the generator cursor moves by exactly `n`), updates the log-price
vector to `x_vec + (rate(new_time, cur_time) - vol²/2)·dt + z·sqrt(dt)·vol`
elementwise, sets `cur_time = new_time`, and changes no other state field. -/
theorem C1_bsstate_advance_update (sq : ℚ → ℚ) (s : BSStateMC) (t : ℚ)
    (h : eps ≤ t - s.cur_time) :
    (∀ i, i < s.n → (s.advance sq t).x_vec i =
        (s.x_vec i
            + (s.asset_fwd.rate t s.cur_time - s.vol * s.vol / 2) * (t - s.cur_time))
          + s.rng.stream (s.rng.idx + i) * sq (t - s.cur_time) * s.vol)
    ∧ (s.advance sq t).cur_time = t
    ∧ (s.advance sq t).rng.stream = s.rng.stream
    ∧ (s.advance sq t).rng.idx = s.rng.idx + s.n
    ∧ (s.advance sq t).n = s.n
    ∧ (s.advance sq t).asset = s.asset
    ∧ (s.advance sq t).asset_fwd = s.asset_fwd
    ∧ (s.advance sq t).spot = s.spot
    ∧ (s.advance sq t).vol = s.vol := by
  have hg : ¬ t - s.cur_time < eps := not_lt.mpr h
  simp only [BSStateMC.advance, RNG.standard_normal, if_neg hg]
  simp

/-- Witness for C1 at a concrete state: threshold satisfied at `t = 1` from a
freshly constructed state, and the clock moves to 1. -/
theorem C1_witness :
    eps ≤ (1 : ℚ) -
        (mkBSStateMC "SPX" ⟨fun _ => 100, fun _ _ => 0⟩ (1/4) 3 fun _ => 0).cur_time
    ∧ ((mkBSStateMC "SPX" ⟨fun _ => 100, fun _ _ => 0⟩ (1/4) 3
        fun _ => 0).advance id 1).cur_time = 1 := by
  have h : eps ≤ (1 : ℚ) -
      (mkBSStateMC "SPX" ⟨fun _ => 100, fun _ _ => 0⟩ (1/4) 3 fun _ => 0).cur_time := by
    norm_num [eps, mkBSStateMC]
  exact ⟨h, (C1_bsstate_advance_update id _ 1 h).2.1⟩

/-- C3: for each process state carrying the epsilon guard (`BSStateMC`,
`BS2State`, Heston `MyState`), `advance(new_time)` with
`new_time - cur_time < 1e-10` (in particular `new_time ≤ cur_time`) returns the
state unchanged — vectors, clock and generator untouched, hence no randomness
drawn — and consequently `advance(t)` twice at the same `t` equals a single
call. -/
theorem C3_guarded_advance_noop :
    (∀ (sq : ℚ → ℚ) (s : BSStateMC) (t : ℚ), t - s.cur_time < eps →
      s.advance sq t = s)
    ∧ (∀ (sq : ℚ → ℚ) (s : BS2State) (t : ℚ), t - s.cur_time < eps →
      s.advance sq t = s)
    ∧ (∀ (sq : ℚ → ℚ) (mvn : MVNSampler) (s : MyState) (t : ℚ),
      t - s.cur_time < eps → s.advance sq mvn t = s)
    ∧ (∀ (sq : ℚ → ℚ) (s : BSStateMC) (t : ℚ),
      (s.advance sq t).advance sq t = s.advance sq t)
    ∧ (∀ (sq : ℚ → ℚ) (s : BS2State) (t : ℚ),
      (s.advance sq t).advance sq t = s.advance sq t)
    ∧ (∀ (sq : ℚ → ℚ) (mvn : MVNSampler) (s : MyState) (t : ℚ),
      (s.advance sq mvn (t)).advance sq mvn t = s.advance sq mvn t) := by
  refine ⟨BSStateMC.bsstate_advance_of_lt, BS2State.bs2_advance_of_lt, MyState.heston_advance_of_lt,
    ?_, ?_, ?_⟩
  · intro sq s t
    by_cases h : t - s.cur_time < eps
    · rw [BSStateMC.bsstate_advance_of_lt sq s t h]
      exact BSStateMC.bsstate_advance_of_lt sq s t h
    · apply BSStateMC.bsstate_advance_of_lt
      rw [BSStateMC.bsstate_advance_cur_time_of_le sq s t h, sub_self]
      exact eps_pos
  · intro sq s t
    by_cases h : t - s.cur_time < eps
    · rw [BS2State.bs2_advance_of_lt sq s t h]
      exact BS2State.bs2_advance_of_lt sq s t h
    · apply BS2State.bs2_advance_of_lt
      rw [BS2State.bs2_advance_cur_time_of_le sq s t h, sub_self]
      exact eps_pos
  · intro sq mvn s t
    by_cases h : t - s.cur_time < eps
    · rw [MyState.heston_advance_of_lt sq mvn s t h]
      exact MyState.heston_advance_of_lt sq mvn s t h
    · apply MyState.heston_advance_of_lt
      rw [MyState.heston_advance_cur_time_of_le sq mvn s t h, sub_self]
      exact eps_pos

/-- Witness for C3: a repeated `advance(0)` (so `dt = 0 < 1e-10`) on a concrete
freshly constructed single-asset state is the identity. -/
theorem C3_witness :
    (mkBSStateMC "SPX" ⟨fun _ => 100, fun _ _ => 0⟩ (1/4) 3
        fun _ => 0).advance id 0
      = mkBSStateMC "SPX" ⟨fun _ => 100, fun _ _ => 0⟩ (1/4) 3 fun _ => 0 := by
  exact C3_guarded_advance_noop.1 id _ 0 (by norm_num [eps, mkBSStateMC])

/-- C7: for each guarded `advance` implementation, a call either leaves
`cur_time` unchanged (when `dt` is below the epsilon threshold, negative `dt`
included) or sets it to the strictly larger `new_time`; so `cur_time` never
decreases. -/
theorem C7_cur_time_monotone :
    (∀ (sq : ℚ → ℚ) (s : BSStateMC) (t : ℚ),
      (s.advance sq t).cur_time = s.cur_time
        ∨ ((s.advance sq t).cur_time = t ∧ s.cur_time < t))
    ∧ (∀ (sq : ℚ → ℚ) (s : BS2State) (t : ℚ),
      (s.advance sq t).cur_time = s.cur_time
        ∨ ((s.advance sq t).cur_time = t ∧ s.cur_time < t))
    ∧ (∀ (sq : ℚ → ℚ) (mvn : MVNSampler) (s : MyState) (t : ℚ),
      (s.advance sq mvn t).cur_time = s.cur_time
        ∨ ((s.advance sq mvn t).cur_time = t ∧ s.cur_time < t)) := by
  refine ⟨?_, ?_, ?_⟩
  · intro sq s t
    by_cases h : t - s.cur_time < eps
    · exact Or.inl (by rw [BSStateMC.bsstate_advance_of_lt sq s t h])
    · refine Or.inr ⟨BSStateMC.bsstate_advance_cur_time_of_le sq s t h, ?_⟩
      have := not_lt.mp h
      have := eps_pos
      linarith
  · intro sq s t
    by_cases h : t - s.cur_time < eps
    · exact Or.inl (by rw [BS2State.bs2_advance_of_lt sq s t h])
    · refine Or.inr ⟨BS2State.bs2_advance_cur_time_of_le sq s t h, ?_⟩
      have := not_lt.mp h
      have := eps_pos
      linarith
  · intro sq mvn s t
    by_cases h : t - s.cur_time < eps
    · exact Or.inl (by rw [MyState.heston_advance_of_lt sq mvn s t h])
    · refine Or.inr ⟨MyState.heston_advance_cur_time_of_le sq mvn s t h, ?_⟩
      have := not_lt.mp h
      have := eps_pos
      linarith

/-- C2: for the Heston process, every `advance(new_time)` with `dt` above the
threshold obtains its shock pair from the bivariate-normal sampler called with
covariance `[[dt, corr*dt], [corr*dt, dt]]`, updates the log-price vector by
`(rate - vol_vec²/2)·dt + vol_vec·shock_price` (no extra `sqrt(dt)` factor,
the shock already carrying variance `dt`), updates the variance vector by
`(long_var - v_vec)·meanrev·dt + vol_of_var·vol_vec·shock_var` with
`vol_vec = sqrt(max(0, v_vec))`, and sets `cur_time = new_time`. -/
theorem C2_heston_advance_update (sq : ℚ → ℚ) (mvn : MVNSampler) (s : MyState)
    (t : ℚ) (h : eps ≤ t - s.cur_time)
    (d : ((ℕ → ℚ) × (ℕ → ℚ)) × RNG)
    (hd : d = mvn ((t - s.cur_time, s.heston_params.2.2.2 * (t - s.cur_time)),
        (s.heston_params.2.2.2 * (t - s.cur_time), t - s.cur_time)) s.n s.rng) :
    (∀ i, (s.advance sq mvn t).x_vec i =
        (s.x_vec i
            + (s.asset_fwd.rate t s.cur_time
                - sq (max 0 (s.v_vec i)) * sq (max 0 (s.v_vec i)) / 2)
              * (t - s.cur_time))
          + sq (max 0 (s.v_vec i)) * d.1.1 i)
    ∧ (∀ i, (s.advance sq mvn t).v_vec i =
        (s.v_vec i
            + (s.heston_params.1 - s.v_vec i) * s.heston_params.2.2.1
              * (t - s.cur_time))
          + s.heston_params.2.1 * sq (max 0 (s.v_vec i)) * d.1.2 i)
    ∧ (s.advance sq mvn t).cur_time = t
    ∧ (s.advance sq mvn t).rng = d.2 := by
  have hg : ¬ t - s.cur_time < eps := not_lt.mpr h
  subst hd
  simp only [MyState.advance, if_neg hg]
  simp

/-- Witness for C2 at a concrete Heston state: one `advance` to `t = 1` moves
the clock to 1. -/
theorem C2_witness :
    eps ≤ (1 : ℚ) -
        (mkMyState "SPX" fwd0 (1/25) 1 10 0 (1/25) 2 fun _ => 0).cur_time
    ∧ ((mkMyState "SPX" fwd0 (1/25) 1 10 0 (1/25) 2
        fun _ => 0).advance id mvn0 1).cur_time = 1 := by
  have h : eps ≤ (1 : ℚ) -
      (mkMyState "SPX" fwd0 (1/25) 1 10 0 (1/25) 2 fun _ => 0).cur_time := by
    norm_num [eps, mkMyState]
  exact ⟨h, (C2_heston_advance_update id mvn0 _ 1 h _ rfl).2.2.1⟩

/-- C4: in the Heston `advance`, the value fed to the square root is always the
non-negative `max(0, v_vec)` — the multiplicative volatility is
`sqrt(max(0, v_vec))`, defined (no NaN) even for negative variance entries —
while the stored variance is updated without any clamp, so negative values can
persist as state across `advance` calls (shown at a concrete state whose
variance goes to `-1/25` and stays negative through a further step). -/
theorem C4_heston_variance_floor :
    (∀ (sq : ℚ → ℚ) (mvn : MVNSampler) (s : MyState) (t : ℚ),
      eps ≤ t - s.cur_time → ∀ i,
        0 ≤ max 0 (s.v_vec i)
        ∧ (s.advance sq mvn t).x_vec i =
            (s.x_vec i
                + (s.asset_fwd.rate t s.cur_time
                    - sq (max 0 (s.v_vec i)) * sq (max 0 (s.v_vec i)) / 2)
                  * (t - s.cur_time))
              + sq (max 0 (s.v_vec i))
                * (mvn ((t - s.cur_time, s.heston_params.2.2.2 * (t - s.cur_time)),
                    (s.heston_params.2.2.2 * (t - s.cur_time), t - s.cur_time))
                    s.n s.rng).1.1 i
        ∧ (s.advance sq mvn t).v_vec i =
            (s.v_vec i
                + (s.heston_params.1 - s.v_vec i) * s.heston_params.2.2.1
                  * (t - s.cur_time))
              + s.heston_params.2.1 * sq (max 0 (s.v_vec i))
                * (mvn ((t - s.cur_time, s.heston_params.2.2.2 * (t - s.cur_time)),
                    (s.heston_params.2.2.2 * (t - s.cur_time), t - s.cur_time))
                    s.n s.rng).1.2 i)
    ∧ ((mkMyState "SPX" fwd0 0 1 0 0 (1/25) 1
          fun _ => -2).advance id mvn0 1).v_vec 0 < 0
    ∧ (((mkMyState "SPX" fwd0 0 1 0 0 (1/25) 1
          fun _ => -2).advance id mvn0 1).advance id mvn0 2).v_vec 0 < 0 := by
  refine ⟨?_, ?_, ?_⟩
  · intro sq mvn s t h i
    have hg : ¬ t - s.cur_time < eps := not_lt.mpr h
    refine ⟨le_max_left 0 _, ?_, ?_⟩ <;>
      simp only [MyState.advance, if_neg hg]
  · norm_num [mkMyState, MyState.advance, mvn0, fwd0, eps]
  · norm_num [mkMyState, MyState.advance, mvn0, fwd0, eps]

/-- Witness for C4 at a concrete state: the hypothesis `eps ≤ dt` holds at
`t = 1` and the floored square-root argument is non-negative there. -/
theorem C4_witness :
    eps ≤ (1 : ℚ) -
        (mkMyState "SPX" fwd0 0 1 0 0 (1/25) 1 fun _ => -2).cur_time
    ∧ 0 ≤ max 0 ((mkMyState "SPX" fwd0 0 1 0 0 (1/25) 1
        fun _ => -2).v_vec 0) := by
  have h : eps ≤ (1 : ℚ) -
      (mkMyState "SPX" fwd0 0 1 0 0 (1/25) 1 fun _ => -2).cur_time := by
    norm_num [eps, mkMyState]
  exact ⟨h, (C4_heston_variance_floor.1 id mvn0 _ 1 h 0).1⟩

/-- C5: in the two-asset `advance` with `dt ≥ 1e-10`, two independent
standard-normal vectors are drawn in order (`z1` at the cursor, `z2` right
after, the cursor finishing `2n` further); asset 1's shock is `z1` unmodified
and asset 2's shock is `sqrt(1 - corr²)·z2 + corr·z1`, with `corr` and
`corr_sup = sqrt(1 - corr²)` fixed at construction and preserved by
`advance`. -/
theorem C5_bs2_correlated_shocks (sq : ℚ → ℚ) (s : BS2State) (t : ℚ)
    (h : eps ≤ t - s.cur_time)
    (hsup : s.corr_sup = sq (1 - s.corr * s.corr)) :
    (∀ i, (s.advance sq t).x1_vec i =
        (s.x1_vec i
            + (s.asset_fwd1.rate t s.cur_time - s.vol1 * s.vol1 / 2)
              * (t - s.cur_time))
          + s.rng.stream (s.rng.idx + i) * sq (t - s.cur_time) * s.vol1)
    ∧ (∀ i, (s.advance sq t).x2_vec i =
        (s.x2_vec i
            + (s.asset_fwd2.rate t s.cur_time - s.vol2 * s.vol2 / 2)
              * (t - s.cur_time))
          + (sq (1 - s.corr * s.corr) * s.rng.stream (s.rng.idx + s.n + i)
              + s.corr * s.rng.stream (s.rng.idx + i))
            * sq (t - s.cur_time) * s.vol2)
    ∧ (s.advance sq t).rng.stream = s.rng.stream
    ∧ (s.advance sq t).rng.idx = s.rng.idx + s.n + s.n
    ∧ (s.advance sq t).corr = s.corr
    ∧ (s.advance sq t).corr_sup = s.corr_sup
    ∧ (∀ (a1 : String) (f1 : Forwards) (v1 : ℚ) (a2 : String) (f2 : Forwards)
        (v2 c : ℚ) (n : ℕ) (st : ℕ → ℚ),
        (mkBS2State sq a1 f1 v1 a2 f2 v2 c n st).corr_sup = sq (1 - c * c)
          ∧ (mkBS2State sq a1 f1 v1 a2 f2 v2 c n st).corr = c) := by
  have hg : ¬ t - s.cur_time < eps := not_lt.mpr h
  refine ⟨fun i => ?_, fun i => ?_, ?_, ?_, ?_, ?_, fun a1 f1 v1 a2 f2 v2 c n st =>
    ⟨rfl, rfl⟩⟩
  · simp only [BS2State.advance, RNG.standard_normal, if_neg hg]
  · simp only [BS2State.advance, RNG.standard_normal, if_neg hg]
    rw [hsup]; ring
  · simp only [BS2State.advance, RNG.standard_normal, if_neg hg]
  · simp only [BS2State.advance, RNG.standard_normal, if_neg hg]
  · simp only [BS2State.advance, RNG.standard_normal, if_neg hg]
  · simp only [BS2State.advance, RNG.standard_normal, if_neg hg]

/-- Witness for C5 at a concrete two-asset state: the step to `t = 1` clears
the threshold and the `corr_sup` invariant holds from construction; the
generator's cursor ends at `2n = 4`. -/
theorem C5_witness :
    ((mkBS2State id "A" fwd0 (1/4) "B" fwd1 (1/4) (1/2) 2
        fun _ => 0).advance id 1).rng.idx = 4 := by
  have h : eps ≤ (1 : ℚ) -
      (mkBS2State id "A" fwd0 (1/4) "B" fwd1 (1/4) (1/2) 2
        fun _ => 0).cur_time := by
    norm_num [eps, mkBS2State]
  have hsup : (mkBS2State id "A" fwd0 (1/4) "B" fwd1 (1/4) (1/2) 2
      fun _ => 0).corr_sup = id (1 - (mkBS2State id "A" fwd0 (1/4) "B" fwd1
        (1/4) (1/2) 2 fun _ => 0).corr * (mkBS2State id "A" fwd0 (1/4) "B"
        fwd1 (1/4) (1/2) 2 fun _ => 0).corr) := rfl
  have := (C5_bs2_correlated_shocks id _ 1 h hsup).2.2.2.1
  simpa [mkBS2State] using this

/-- Symmetry invariant for the two-asset state: equal volatilities, equal
forward curves, correlation pinned at 1 with `corr_sup = 0`, and elementwise
equal log-price vectors. -/
def BS2Sym (s : BS2State) : Prop :=
  s.vol1 = s.vol2 ∧ s.asset_fwd1 = s.asset_fwd2 ∧ s.corr = 1 ∧ s.corr_sup = 0
    ∧ ∀ i, s.x1_vec i = s.x2_vec i

theorem BS2State.advance_sym (sq : ℚ → ℚ) (s : BS2State) (t : ℚ)
    (h : BS2Sym s) : BS2Sym (s.advance sq t) := by
  obtain ⟨hv, hf, hc, hcs, hx⟩ := h
  by_cases hg : t - s.cur_time < eps
  · rw [BS2State.bs2_advance_of_lt sq s t hg]
    exact ⟨hv, hf, hc, hcs, hx⟩
  · refine ⟨?_, ?_, ?_, ?_, fun i => ?_⟩ <;>
      simp only [BS2State.advance, RNG.standard_normal, if_neg hg]
    · exact hv
    · exact hf
    · exact hc
    · exact hcs
    · rw [hx i, hv, hf, hc, hcs]
      ring

theorem BS2State.foldl_sym (sq : ℚ → ℚ) (ts : List ℚ) :
    ∀ s : BS2State, BS2Sym s →
      BS2Sym (ts.foldl (fun s t => s.advance sq t) s) := by
  induction ts with
  | nil => exact fun s h => h
  | cons t ts ih => exact fun s h => ih _ (BS2State.advance_sym sq s t h)

/-- C6 counterexample: with `correlation = 1` and identical volatilities but
distinct forward curves (rate 0 for asset 1 vs rate 1 for asset 2), one
`advance` to `t = 1` already separates the two log-price vectors
(`x1 = -1/32` vs `x2 = 31/32` on every path), so the claim as stated —
which does not require identical forward curves — fails. -/
theorem C6_counterexample :
    ¬ (∀ i, ((mkBS2State id "A" fwd0 (1/4) "B" fwd1 (1/4) 1 2
          fun _ => 0).advance id 1).x1_vec i
        = ((mkBS2State id "A" fwd0 (1/4) "B" fwd1 (1/4) 1 2
          fun _ => 0).advance id 1).x2_vec i) := by
  intro hyp
  have h0 := hyp 0
  norm_num [mkBS2State, BS2State.advance, RNG.standard_normal, fwd0, fwd1,
    eps] at h0

/-- C6 (amended): for the two-asset process constructed with
`correlation = 1.0`, identical volatilities AND identical forward curves for
both assets, after any sequence of `advance` calls (same seed, the one shared
generator) the two log-price vectors are elementwise identical. -/
theorem C6_corr_one_vectors_identical (sq : ℚ → ℚ) (hsq : sq 0 = 0)
    (a1 : String) (f : Forwards) (v : ℚ) (a2 : String) (n : ℕ)
    (stream : ℕ → ℚ) (ts : List ℚ) :
    ∀ i, (ts.foldl (fun s t => s.advance sq t)
          (mkBS2State sq a1 f v a2 f v 1 n stream)).x1_vec i
      = (ts.foldl (fun s t => s.advance sq t)
          (mkBS2State sq a1 f v a2 f v 1 n stream)).x2_vec i := by
  have h0 : BS2Sym (mkBS2State sq a1 f v a2 f v 1 n stream) := by
    refine ⟨rfl, rfl, rfl, ?_, fun i => rfl⟩
    show sq (1 - 1 * 1) = 0
    rw [show (1 : ℚ) - 1 * 1 = 0 by ring]
    exact hsq
  exact (BS2State.foldl_sym sq ts _ h0).2.2.2.2

/-- Witness for C6 (amended) at a concrete instance: identical curves and
volatilities, `corr = 1`, two advances to `t = 1` then `t = 2`; path 0 of the
two log-price vectors coincides. -/
theorem C6_witness :
    ([1, 2].foldl (fun s t => s.advance id t)
        (mkBS2State id "A" fwd0 (1/4) "B" fwd0 (1/4) 1 2 fun _ => 0)).x1_vec 0
      = ([1, 2].foldl (fun s t => s.advance id t)
        (mkBS2State id "A" fwd0 (1/4) "B" fwd0 (1/4) 1 2 fun _ => 0)).x2_vec 0 :=
  C6_corr_one_vectors_identical id rfl "A" fwd0 (1/4) "B" 2 (fun _ => 0) [1, 2] 0

/-- C8: for every unit string, `get_value(unit)` returns
`spot * exp(log_price_vector)` exactly when the unit equals one of the asset
names configured on the process (one for the single-asset `BSStateMC`/`BSMC`
and Heston `MyState`, two for `BS2State`), and returns the `None` sentinel for
every other unit.  In this embedding `get_value` is a pure function of the
state — it returns only a value, mirroring that the method reads but never
writes any state field. -/
theorem C8_get_value_dispatch :
    (∀ (ex : ℚ → ℚ) (s : BSStateMC) (u : String),
      (u = s.asset → s.get_value ex u = some fun i => s.spot * ex (s.x_vec i))
      ∧ (u ≠ s.asset → s.get_value ex u = none))
    ∧ (∀ (ex : ℚ → ℚ) (s : BSMC) (u : String),
      (u = s.asset → s.get_value ex u = some fun i => s.spot * ex (s.x_vec i))
      ∧ (u ≠ s.asset → s.get_value ex u = none))
    ∧ (∀ (ex : ℚ → ℚ) (s : MyState) (u : String),
      (u = s.asset → s.get_value ex u = some fun i => s.spot * ex (s.x_vec i))
      ∧ (u ≠ s.asset → s.get_value ex u = none))
    ∧ (∀ (ex : ℚ → ℚ) (s : BS2State) (u : String),
      (u = s.asset1 →
        s.get_value ex u = some fun i => s.spot1 * ex (s.x1_vec i))
      ∧ (u ≠ s.asset1 → u = s.asset2 →
        s.get_value ex u = some fun i => s.spot2 * ex (s.x2_vec i))
      ∧ (u ≠ s.asset1 → u ≠ s.asset2 → s.get_value ex u = none)) := by
  refine ⟨fun ex s u => ⟨fun h => ?_, fun h => ?_⟩,
    fun ex s u => ⟨fun h => ?_, fun h => ?_⟩,
    fun ex s u => ⟨fun h => ?_, fun h => ?_⟩,
    fun ex s u => ⟨fun h => ?_, fun h1 h2 => ?_, fun h1 h2 => ?_⟩⟩
  · simp only [BSStateMC.get_value, if_pos h]
  · simp only [BSStateMC.get_value, if_neg h]
  · simp only [BSMC.get_value, if_pos h]
  · simp only [BSMC.get_value, if_neg h]
  · simp only [MyState.get_value, if_pos h]
  · simp only [MyState.get_value, if_neg h]
  · simp only [BS2State.get_value, if_pos h]
  · simp only [BS2State.get_value, if_neg h1, if_pos h2]
  · simp only [BS2State.get_value, if_neg h1, if_neg h2]

/-- Witness for C8 at concrete states: the single-asset state answers its own
asset and defers any other unit. -/
theorem C8_witness :
    (mkBSStateMC "SPX" fwd0 (1/4) 3 fun _ => 0).get_value id "EUR" = none
    ∧ (mkBSStateMC "SPX" fwd0 (1/4) 3 fun _ => 0).get_value id "SPX"
      = some fun i => (mkBSStateMC "SPX" fwd0 (1/4) 3 fun _ => 0).spot
          * id ((mkBSStateMC "SPX" fwd0 (1/4) 3 fun _ => 0).x_vec i) := by
  constructor
  · exact (C8_get_value_dispatch.1 id _ "EUR").2 (by decide)
  · exact (C8_get_value_dispatch.1 id _ "SPX").1 rfl

/-- C9 counterexample: against the claim, the reference Heston
`MyState.advance` DOES carry the epsilon guard — at a concrete state a call
with `dt = 0` returns the state untouched, drawing nothing — while the
flat-vol `MCFixedStep` variant `BSMC.step` does NOT guard: at `dt = 0` it
still moves the generator cursor (by `path_count`). -/
theorem C9_counterexample :
    ((mkMyState "SPX" fwd0 (1/25) 1 10 0 (1/25) 2
        fun _ => 0).advance id mvn0 0
      = mkMyState "SPX" fwd0 (1/25) 1 10 0 (1/25) 2 fun _ => 0)
    ∧ (bsmc0.step id 0).rng.idx ≠ bsmc0.rng.idx := by
  constructor
  · exact MyState.heston_advance_of_lt id mvn0 _ 0 (by norm_num [eps, mkMyState])
  · simp [BSMC.step, RNG.standard_normal, bsmc0]

/-- C9 (amended): the epsilon guard `dt < 1e-10` is present in the Heston
`MyState.advance` and in the flat-vol `BSStateMC.advance` and
`BS2State.advance`; it is the `MCFixedStep` flat-vol variant `BSMC.step` that
omits it and steps unconditionally, drawing `path_count` variates (cursor
moves by `n`) even for a zero-length `dt`. -/
theorem C9_guard_placement :
    (∀ (sq : ℚ → ℚ) (mvn : MVNSampler) (s : MyState) (t : ℚ),
      t - s.cur_time < eps → s.advance sq mvn t = s)
    ∧ (∀ (sq : ℚ → ℚ) (s : BSStateMC) (t : ℚ), t - s.cur_time < eps →
      s.advance sq t = s)
    ∧ (∀ (sq : ℚ → ℚ) (s : BS2State) (t : ℚ), t - s.cur_time < eps →
      s.advance sq t = s)
    ∧ (∀ (sq : ℚ → ℚ) (s : BSMC),
      (s.step sq s.cur_time).rng.idx = s.rng.idx + s.n
        ∧ (s.step sq s.cur_time).cur_time = s.cur_time) := by
  refine ⟨MyState.heston_advance_of_lt, BSStateMC.bsstate_advance_of_lt, BS2State.bs2_advance_of_lt,
    fun sq s => ⟨?_, ?_⟩⟩ <;> simp only [BSMC.step, RNG.standard_normal]

/-- Witness for C9 (amended): the guard fires at `dt = 0` on a concrete
Heston state. -/
theorem C9_witness :
    (mkMyState "SPX" fwd0 (1/25) 1 10 0 (1/25) 2
        fun _ => 0).advance id mvn0 0
      = mkMyState "SPX" fwd0 (1/25) 1 10 0 (1/25) 2 fun _ => 0 :=
  C9_guard_placement.1 id mvn0 _ 0 (by norm_num [eps, mkMyState])

/-- C10: in the `MCFixedStep` flat-vol variant, `step(new_time)` with
`new_time = cur_time` leaves the log-price vector and the clock numerically
unchanged (the drift is multiplied by `dt = 0` and the diffusion increment is
`z·sqrt(0)·vol = 0`) but still consumes `path_count` standard-normal draws:
the generator cursor moves by `n`, so — unlike the guarded variants — it
changes every piece of randomness drawn afterwards. -/
theorem C10_bsmc_step_same_time (sq : ℚ → ℚ) (hsq : sq 0 = 0) (s : BSMC) :
    (∀ i, (s.step sq s.cur_time).x_vec i = s.x_vec i)
    ∧ (s.step sq s.cur_time).cur_time = s.cur_time
    ∧ (s.step sq s.cur_time).rng.stream = s.rng.stream
    ∧ (s.step sq s.cur_time).rng.idx = s.rng.idx + s.n
    ∧ (0 < s.n → (s.step sq s.cur_time).rng.idx ≠ s.rng.idx) := by
  refine ⟨fun i => ?_, ?_, ?_, ?_, fun hn => ?_⟩ <;>
    simp only [BSMC.step, RNG.standard_normal, sub_self, hsq]
  · ring
  · omega

/-- Witness for C10 at a concrete `BSMC` state: a repeated event time consumes
`path_count = 2` draws, leaving the cursor strictly ahead. -/
theorem C10_witness :
    0 < bsmc0.n ∧ (bsmc0.step id bsmc0.cur_time).rng.idx ≠ bsmc0.rng.idx := by
  constructor
  · norm_num [bsmc0]
  · exact (C10_bsmc_step_same_time id rfl bsmc0).2.2.2.2 (by norm_num [bsmc0])

end QabletMC
